import Mathlib

set_option maxHeartbeats 1000000
set_option maxRecDepth 16384

namespace Shiftmanager

/-- Python truthiness of an optional string attribute: None and the empty
string are falsy. -/
def strTruthy : Option String → Bool
  | none => false
  | some s => !(s == (""))

def optStr (o : Option String) : String := o.getD ("")

/-- Python str.startswith, read off the underlying character list. -/
def strStarts (p s : String) : Bool := p.data.isPrefixOf s.data

/-- Python str.endswith, read off the underlying character list. -/
def strEnds (p s : String) : Bool := p.data.isSuffixOf s.data

/-- Python str.upper on the ASCII strings this code manipulates. -/
def pyUpperChar (c : Char) : Char :=
  if ('a' ≤ c ∧ c ≤ 'z') then Char.ofNat (c.toNat - 32) else c

def pyUpper (s : String) : String := String.mk (s.data.map pyUpperChar)

/-- Core loop of Python str.replace for a nonempty pattern p0 :: ps: replace
each non-overlapping occurrence, scanning left to right. The extra fuel
argument only makes the recursion structural; every call supplies at least
the list length, and the skip after a match consumes no more fuel than list
elements, so the fuel-exhausted branch is never reached. -/
def replaceAux (p0 : Char) (ps r : List Char) : Nat → List Char → List Char
  | _, [] => []
  | 0, l => l
  | fuel + 1, c :: cs =>
    if (p0 :: ps).isPrefixOf (c :: cs) then
      r ++ replaceAux p0 ps r fuel (cs.drop ps.length)
    else c :: replaceAux p0 ps r fuel cs

/-- Python s.replace(pat, rep); for an empty pattern Python interleaves the
replacement around every character. -/
def pyReplace (s pat rep : String) : String :=
  match pat.data with
  | [] => String.mk (rep.data ++ s.data.flatMap (fun c => c :: rep.data))
  | p0 :: ps => String.mk (replaceAux p0 ps rep.data s.data.length s.data)

/-- Python sep.join(pieces). -/
def pyJoin (sep : String) : List String → String
  | [] => ("")
  | [x] => x
  | x :: y :: xs => x ++ sep ++ pyJoin sep (y :: xs)

def lbrace : Char := Char.ofNat 123

def rbrace : Char := Char.ofNat 125

/-- Python str.format with keyword arguments, restricted to the simple named
fields used by definition() (no double-brace escapes, no format specs, which
never occur there). A field name missing from the mapping raises KeyError in
Python; the model keeps the field verbatim, a case no claim exercises. -/
def pyFormatAux (assoc : List (String × String)) : Nat → List Char → List Char
  | _, [] => []
  | 0, l => l
  | fuel + 1, c :: cs =>
    if c = lbrace then
      let n := (cs.takeWhile (fun d => !(d == rbrace))).length
      if n < cs.length then
        (match assoc.find? (fun p => p.1 == String.mk (cs.take n)) with
         | some p => p.2.data
         | none => lbrace :: (cs.take n ++ [rbrace])) ++
          pyFormatAux assoc fuel (cs.drop (n + 1))
      else c :: cs
    else c :: pyFormatAux assoc fuel cs

def pyFormat (assoc : List (String × String)) (s : String) : String :=
  String.mk (pyFormatAux assoc s.data.length s.data)

/-- Python os.path.basename for the forward-slash paths used here. -/
def pyBasename (p : String) : String :=
  String.mk ((p.data.reverse.takeWhile (fun c => !(c == '/'))).reverse)

/-- Python os.path.join on two components (posixpath rules). -/
def osPathJoin (a b : String) : String :=
  if strStarts ("/") b then b
  else if a == ("") then a ++ b
  else if strEnds ("/") a then a ++ b
  else a ++ ("/") ++ b

/-- Modelled from the spec: `shiftmanager.util.linspace` is imported by
`chunk_json_slices` but `shiftmanager/util.py` is not among the sources;
§4.3 of the spec gives the i-th boundary start as floor(i * N / S). -/
def linspace (start stop num : Nat) : List Nat :=
  (List.range num).map (fun i => start + i * (stop - start) / num)

/-- The attributes a constructed TableDefinitionStatement stores; both the
package implementation (shiftmanager/redshift.py) and the legacy top-level
implementation (shiftmanager.py) store the same fields. -/
structure TableDefinitionStatement where
  tablename : String
  sets : List String
  grants : List String
  alters : List String
  create_lines : List String
  distkey : Option String
  sortkey : Option String
  diststyle : String
deriving DecidableEq

/-- The fixed Redshift distribution-style code table. -/
def DISTSTYLES_BY_INDEX (n : Nat) : Option String :=
  if n = 0 then some ("EVEN")
  else if n = 1 then some ("KEY")
  else if n = 8 then some ("ALL")
  else none

/-- Embeds the extraction of the CREATE TABLE block in __init__:
`create_start_index` is the first line starting with `CREATE TABLE `,
`create_end_index` the first later line starting with `);`, and
`create_lines = lines[create_start_index:create_end_index]`. Indexing into an
empty comprehension raises IndexError in Python; the model returns none. -/
def parseCreateBlock (lines : List String) : Option (List String) :=
  match lines.findIdx? (fun l => strStarts ("CREATE TABLE ") l) with
  | none => none
  | some s =>
    match (lines.drop (s + 1)).findIdx? (fun l => strStarts (");") l) with
    | none => none
    | some j => some ((lines.drop s).take (j + 1))

/-- Embeds `arg or rows and rows[0][0] or None` (the Python or/and chain over
the explicit argument, the fetchall row list, and None). -/
def resolveKeyAttr (arg : Option String) (rows : List String) : Option String :=
  if strTruthy arg then arg
  else
    match rows with
    | [] => none
    | r :: _ => if r == ("") then none else some r

/-- Embeds `diststyle or DISTSTYLES_BY_INDEX[cur.fetchone()[0]]`; a missing
catalog row (TypeError on None) or an unmapped style code (KeyError) makes
construction fail, modelled as none. -/
def resolveDiststyle (arg : Option String) (code : Option Nat) : Option String :=
  if strTruthy arg then some (optStr arg)
  else
    match code with
    | none => none
    | some c => DISTSTYLES_BY_INDEX c

namespace Redshift

/-- Embeds TableDefinitionStatement.__init__ from shiftmanager/redshift.py.
The pg_dump output is given as its line list; the three catalog queries by
their results (first-column values of the distkey and sortkey queries, the
reldiststyle code, none when fetchone returns no row). A construction
failure (IndexError on a missing CREATE TABLE block, TypeError/KeyError on a
failed style lookup) is modelled as none. -/
def tdsInit (lines : List String) (distkeyRows sortkeyRows : List String)
    (reldiststyle : Option Nat) (tablename : String)
    (distkey sortkey diststyle owner : Option String) :
    Option TableDefinitionStatement :=
  let sets := lines.filter (fun l => strStarts ("SET ") l)
  let grants := lines.filter (fun l => strStarts ("REVOKE ") l || strStarts ("GRANT ") l)
  let alters := lines.filter
    (fun l => strStarts ("ALTER TABLE ") l && !(strStarts ("ALTER TABLE ONLY") l))
  let alters := if strTruthy owner then
      alters ++ [("ALTER TABLE ") ++ tablename ++ (" OWNER to ") ++ optStr owner ++ (";")]
    else alters
  let grants := if strTruthy owner then
      grants ++ [("GRANT ALL ON TABLE ") ++ tablename ++ (" TO ") ++ optStr owner ++ (";")]
    else grants
  match parseCreateBlock lines with
  | none => none
  | some create_lines =>
    let dk := resolveKeyAttr distkey distkeyRows
    let sk := resolveKeyAttr sortkey sortkeyRows
    match resolveDiststyle diststyle reldiststyle with
    | none => none
    | some ds0 =>
      let ds := if strTruthy distkey && !(strTruthy diststyle) then ("KEY") else ds0
      let dk := if pyUpper ds == ("ALL") || pyUpper ds == ("EVEN") then none else dk
      some { tablename := tablename, sets := sets, grants := grants, alters := alters,
             create_lines := create_lines, distkey := dk, sortkey := sk, diststyle := ds }

/-- The `names` mapping of definition() in shiftmanager/redshift.py. -/
def names (t : TableDefinitionStatement) : List (String × String) :=
  [(("tablename"), t.tablename),
   (("oldtmp"), ("temp_old_") ++ t.tablename),
   (("newtmp"), ("temp_new_") ++ t.tablename)]

/-- Python `lines[-1] += s` on a line list (IndexError on []; unreachable
here because a DISTSTYLE line has always been appended). -/
def appendToLast (s : String) : List String → List String
  | [] => []
  | [x] => [x ++ s]
  | x :: y :: xs => x :: appendToLast s (y :: xs)

/-- Embeds the create_lines block of definition() in shiftmanager/redshift.py:
copy self.create_lines, retarget the first line at the new temporary name,
append the DISTSTYLE line and the optional DISTKEY/SORTKEY lines, and
terminate the last line. Python raises IndexError on `create_lines[0]` when
the list is empty; modelled as none. -/
def createLinesOut (t : TableDefinitionStatement) : Option (List String) :=
  match t.create_lines with
  | [] => none
  | c0 :: rest =>
    let cl := pyReplace c0 t.tablename ("\x7bnewtmp\x7d") :: rest
    let cl := cl ++ [(") DISTSTYLE ") ++ t.diststyle]
    let cl := if strTruthy t.distkey then cl ++ [("  DISTKEY(") ++ optStr t.distkey ++ (")")] else cl
    let cl := if strTruthy t.sortkey then cl ++ [("  SORTKEY(") ++ optStr t.sortkey ++ (")")] else cl
    some (appendToLast (";\n") cl)

/-- The all_lines chain of definition() in shiftmanager/redshift.py, before
joining and formatting: search-path line, rename of the original table,
create block, insert, rename of the new table, drop, alters, blank, grants. -/
def allLines (t : TableDefinitionStatement) : Option (List String) :=
  match createLinesOut t with
  | none => none
  | some cl =>
    some ([("SET search_path = analytics, pg_catalog;\n")] ++
      [("ALTER TABLE \x7btablename\x7d RENAME TO \x7boldtmp\x7d;")] ++
      cl ++
      [("INSERT INTO \x7bnewtmp\x7d (SELECT * FROM \x7boldtmp\x7d);")] ++
      [("ALTER TABLE \x7bnewtmp\x7d RENAME TO \x7btablename\x7d;")] ++
      [("DROP TABLE \x7boldtmp\x7d;\n")] ++
      t.alters ++ [("")] ++ t.grants)

/-- Embeds definition() of shiftmanager/redshift.py as a state-passing run:
the returned pair is the produced script and the object state after the call
(the method only reads self; the mutated list is the local copy). -/
def definitionRun (t : TableDefinitionStatement) :
    Option (String × TableDefinitionStatement) :=
  match allLines t with
  | none => none
  | some ls => some (pyJoin ("\n") (ls.map (pyFormat (names t))), t)

/-- The script definition() returns, shiftmanager/redshift.py version. -/
def definition (t : TableDefinitionStatement) : Option String :=
  (definitionRun t).map Prod.fst

end Redshift

namespace Legacy

/-- Embeds TableDefinitionStatement.__init__ from the legacy top-level
shiftmanager.py; identical to the package version except that the alters
list keeps every line starting with `ALTER TABLE ` (no ONLY exclusion). -/
def tdsInit (lines : List String) (distkeyRows sortkeyRows : List String)
    (reldiststyle : Option Nat) (tablename : String)
    (distkey sortkey diststyle owner : Option String) :
    Option TableDefinitionStatement :=
  let sets := lines.filter (fun l => strStarts ("SET ") l)
  let grants := lines.filter (fun l => strStarts ("REVOKE ") l || strStarts ("GRANT ") l)
  let alters := lines.filter (fun l => strStarts ("ALTER TABLE ") l)
  let alters := if strTruthy owner then
      alters ++ [("ALTER TABLE ") ++ tablename ++ (" OWNER to ") ++ optStr owner ++ (";")]
    else alters
  let grants := if strTruthy owner then
      grants ++ [("GRANT ALL ON TABLE ") ++ tablename ++ (" TO ") ++ optStr owner ++ (";")]
    else grants
  match parseCreateBlock lines with
  | none => none
  | some create_lines =>
    let dk := resolveKeyAttr distkey distkeyRows
    let sk := resolveKeyAttr sortkey sortkeyRows
    match resolveDiststyle diststyle reldiststyle with
    | none => none
    | some ds0 =>
      let ds := if strTruthy distkey && !(strTruthy diststyle) then ("KEY") else ds0
      let dk := if pyUpper ds == ("ALL") || pyUpper ds == ("EVEN") then none else dk
      some { tablename := tablename, sets := sets, grants := grants, alters := alters,
             create_lines := create_lines, distkey := dk, sortkey := sk, diststyle := ds }

/-- The `names` mapping of definition() in the legacy shiftmanager.py. -/
def names (t : TableDefinitionStatement) : List (String × String) :=
  [(("tablename"), t.tablename),
   (("srcname"), ("tempsource_") ++ t.tablename),
   (("tgtname"), ("temptarget_") ++ t.tablename)]

/-- The create_lines block of definition() in the legacy shiftmanager.py
(the same construction as the package version, but the first line is
retargeted at \x7btgtname\x7d). -/
def createLinesOut (t : TableDefinitionStatement) : Option (List String) :=
  match t.create_lines with
  | [] => none
  | c0 :: rest =>
    let cl := pyReplace c0 t.tablename ("\x7btgtname\x7d") :: rest
    let cl := cl ++ [(") DISTSTYLE ") ++ t.diststyle]
    let cl := if strTruthy t.distkey then cl ++ [("  DISTKEY(") ++ optStr t.distkey ++ (")")] else cl
    let cl := if strTruthy t.sortkey then cl ++ [("  SORTKEY(") ++ optStr t.sortkey ++ (")")] else cl
    some (Redshift.appendToLast (";\n") cl)

/-- The all_lines list of definition() in the legacy shiftmanager.py: create
block first, then rename/insert/rename/drop, alters, blank, grants; every
line is then indented by two spaces, `BEGIN TRANSACTION;` is inserted in
front and `END TRANSACTION;` appended. -/
def allLines (t : TableDefinitionStatement) : Option (List String) :=
  match createLinesOut t with
  | none => none
  | some cl =>
    let body := cl ++
      [("ALTER TABLE \x7btablename\x7d RENAME TO \x7bsrcname\x7d;")] ++
      [("INSERT INTO \x7btgtname\x7d (SELECT * FROM \x7bsrcname\x7d);")] ++
      [("ALTER TABLE \x7btgtname\x7d RENAME TO \x7btablename\x7d;")] ++
      [("DROP TABLE \x7bsrcname\x7d;\n")] ++
      t.alters ++ [("")] ++ t.grants
    some (("BEGIN TRANSACTION;\n") :: body.map (fun l => ("  ") ++ l) ++ [("\nEND TRANSACTION;")])

/-- Embeds definition() of the legacy shiftmanager.py as a state-passing
run, analogous to the package version. -/
def definitionRun (t : TableDefinitionStatement) :
    Option (String × TableDefinitionStatement) :=
  match allLines t with
  | none => none
  | some ls => some (pyJoin ("\n") (ls.map (pyFormat (names t))), t)

/-- The script definition() returns, legacy shiftmanager.py version. -/
def definition (t : TableDefinitionStatement) : Option String :=
  (definitionRun t).map Prod.fst

end Legacy

/-- A script is wrapped in explicit transaction markers when it starts with a
transaction-begin statement and ends with a transaction-end statement. -/
def wrappedInTransaction (s : String) : Bool :=
  strStarts ("BEGIN TRANSACTION;") s && strEnds ("END TRANSACTION;") s

/-- The chunk file path of partition i: os.path.join(directory,
"-".join([stamp, str(i)]) + ".gz"). -/
def chunkPath (directory stamp : String) (i : Nat) : String :=
  osPathJoin directory (stamp ++ ("-") ++ toString i ++ (".gz"))

/-- State of Shift.chunk_json_slices after the context exits: the chunk files
still on disk, the chunk_files list the loop accumulated, and whether an
exception propagated out. -/
structure ChunkRunResult where
  disk : List String
  chunk_files : List String
  raised : Bool
deriving DecidableEq

/-- The chunk-writing loop of chunk_json_slices over `n` remaining zipper
entries, starting at index `i`: gzip.open creates the file on disk, the write
may raise (writeOk i = false), and only after a successful write and close is
the path appended to chunk_files. Returns (files created on disk,
chunk_files, loop completed without raising). -/
def chunkLoop (directory stamp : String) (writeOk : Nat → Bool) :
    Nat → Nat → List String × List String × Bool
  | _, 0 => ([], [], true)
  | i, n + 1 =>
    let wp := chunkPath directory stamp i
    if writeOk i then
      let r := chunkLoop directory stamp writeOk (i + 1) n
      (wp :: r.1, wp :: r.2.1, r.2.2)
    else ([wp], [], false)

/-- The slice start boundaries of chunk_json_slices:
`chunk_range_start = util.linspace(0, num_data, slices)`. -/
def chunk_range_start (numData slices : Nat) : List Nat := linspace 0 numData slices

/-- The slice end boundaries of chunk_json_slices:
`chunk_range_end = chunk_range_start[1:]; chunk_range_end.append(None)`
(None marks the final slice, open to the end of the data). -/
def chunk_range_end (numData slices : Nat) : List (Option Nat) :=
  (chunk_range_start numData slices).tail.map some ++ [none]

/-- The exclusive end of slice i: the i-th chunk_range_end entry when it is a
number, and the data length for the open final slice. -/
def sliceEnd (numData slices i : Nat) : Nat :=
  if i + 1 < slices then (i + 1) * numData / slices else numData

/-- Embeds Shift.chunk_json_slices (shiftmanager/redshift.py): the boundary
zipper pairs chunk_range_start with chunk_range_end; one chunk file is
written per zipper entry; after the loop the body of the with block runs
(downstreamOk = false models an error raised downstream while the context is
open); the finally block removes exactly the files listed in chunk_files
when clean_on_exit is set. `disk` is what remains on disk. -/
def chunk_json_slices (numData slices : Nat) (directory stamp : String)
    (writeOk : Nat → Bool) (downstreamOk clean_on_exit : Bool) : ChunkRunResult :=
  let range_zipper := (chunk_range_start numData slices).zip (chunk_range_end numData slices)
  let r := chunkLoop directory stamp writeOk 0 range_zipper.length
  let raised := !r.2.2 || !downstreamOk
  let disk := if clean_on_exit then r.1.filter (fun f => !(r.2.1.contains f)) else r.1
  { disk := disk, chunk_files := r.2.1, raised := raised }

/-- One entry of the COPY manifest: \x7b"url": ..., "mandatory": true\x7d. -/
structure ManifestEntry where
  url : String
  mandatory : Bool
deriving DecidableEq

/-- Result of the S3 staging part of Shift.copy_json_to_table: the sweep list
s3_sweep, the keys whose uploads actually completed (partition data keys,
then metadata keys), the partition data keys alone, the manifest entry list,
and flags recording which stages completed. -/
structure CopyRunResult where
  sweep : List String
  written : List String
  dataWritten : List String
  manifest : List ManifestEntry
  manifestUploaded : Bool
  jsonpathsUploaded : Bool
  ok : Bool
deriving DecidableEq

/-- The partition upload loop of copy_json_to_table: per file, strip one
leading slash from keypath, derive the data keypath from the file basename,
append it to s3_sweep BEFORE the upload, then attempt the upload
(okData i = false models set_contents_from_file raising); on success append
the manifest entry and continue. Returns (sweep suffix, written keys,
manifest entries, final keypath, completed without raising). -/
def copyLoop (bucket : String) (okData : Nat → Bool) :
    Nat → String → List String →
    List String × List String × List ManifestEntry × String × Bool
  | _, keypath, [] => ([], [], [], keypath, true)
  | i, keypath, path :: rest =>
    let keypath := if strStarts ("/") keypath then String.mk keypath.data.tail else keypath
    let data_keypath := osPathJoin keypath (pyBasename path)
    if okData i then
      let entry : ManifestEntry :=
        { url := ("s3://") ++ bucket ++ ("/") ++ data_keypath, mandatory := true }
      let r := copyLoop bucket okData (i + 1) keypath rest
      (data_keypath :: r.1, data_keypath :: r.2.1, entry :: r.2.2.1, r.2.2.2)
    else ([data_keypath], [], [], keypath, false)

/-- Embeds the S3 staging phase of Shift.copy_json_to_table
(shiftmanager/redshift.py): upload every partition file in order (each key
entering s3_sweep before its upload attempt); when the loop completes, write
the .manifest object and then the .jsonpaths object via single_dict_write,
which appends each metadata key to s3_sweep only AFTER its write succeeds
(okManifest/okJsonpaths model write_dict_to_key raising). -/
def copy_json_to_table (bucket keypath stamp : String) (file_paths : List String)
    (okData : Nat → Bool) (okManifest okJsonpaths : Bool) : CopyRunResult :=
  let r := copyLoop bucket okData 0 keypath file_paths
  let sweep := r.1
  let dataWritten := r.2.1
  let manifest := r.2.2.1
  let keypath := r.2.2.2.1
  let loopOk := r.2.2.2.2
  if loopOk then
    let stamped_path := osPathJoin keypath stamp
    let mkey := stamped_path ++ (".manifest")
    if okManifest then
      let jkey := stamped_path ++ (".jsonpaths")
      if okJsonpaths then
        { sweep := sweep ++ [mkey, jkey], written := dataWritten ++ [mkey, jkey],
          dataWritten := dataWritten, manifest := manifest,
          manifestUploaded := true, jsonpathsUploaded := true, ok := true }
      else
        { sweep := sweep ++ [mkey], written := dataWritten ++ [mkey],
          dataWritten := dataWritten, manifest := manifest,
          manifestUploaded := true, jsonpathsUploaded := false, ok := false }
    else
      { sweep := sweep, written := dataWritten, dataWritten := dataWritten,
        manifest := manifest, manifestUploaded := false, jsonpathsUploaded := false,
        ok := false }
  else
    { sweep := sweep, written := dataWritten, dataWritten := dataWritten,
      manifest := manifest, manifestUploaded := false, jsonpathsUploaded := false,
      ok := false }

/-- Python string.ascii_uppercase. -/
def ascii_uppercase : List Char := (List.range 26).map (fun i => Char.ofNat (65 + i))

/-- Python string.ascii_lowercase. -/
def ascii_lowercase : List Char := (List.range 26).map (fun i => Char.ofNat (97 + i))

/-- Python string.digits. -/
def pyDigits : List Char := (List.range 10).map (fun i => Char.ofNat (48 + i))

/-- Python string.punctuation: the printable ASCII characters (codes 33-126)
that are neither letters nor digits. -/
def pyPunctuation : List Char :=
  ((List.range 94).map (fun i => Char.ofNat (33 + i))).filter
    (fun c => !(c.isAlpha || c.isDigit))

/-- The characters Shift.random_password excludes: backslash, forward slash,
single quote, double quote, at sign, space (the Python literal
invalid_chars). -/
def invalid_chars : List Char :=
  [Char.ofNat 92, '/', Char.ofNat 39, Char.ofNat 34, '@', ' ']

/-- The valid_chars pool of Shift.random_password: digits, ASCII letters and
punctuation minus the invalid characters (Python builds a set; only
membership matters downstream). -/
def valid_chars : List Char :=
  ((pyDigits ++ ascii_uppercase ++ ascii_lowercase ++ pyPunctuation).filter
    (fun c => !(invalid_chars.contains c))).dedup

/-- The chars list Shift.random_password builds before shuffling: one choice
from ascii_uppercase, one from ascii_lowercase, one from digits, then
length - 3 choices from valid_chars. -/
def random_password_chars (u l d : Char) (rest : List Char) : List Char :=
  [u, l, d] ++ rest

/-- A concrete single-table pg_dump output used to instantiate theorems. -/
def exDumpLines : List String :=
  [("SET client_encoding = UTF8;"),
   (""),
   ("CREATE TABLE mytable ("),
   ("    id integer"),
   (");"),
   (""),
   ("ALTER TABLE ONLY mytable ADD CONSTRAINT c PRIMARY KEY (id);"),
   ("ALTER TABLE mytable OWNER TO bob;"),
   ("GRANT ALL ON TABLE mytable TO admin;")]

/-- The fallback object used to unwrap Option values at concrete inputs. -/
def emptyTds : TableDefinitionStatement :=
  { tablename := (""), sets := [], grants := [], alters := [], create_lines := [],
    distkey := none, sortkey := none, diststyle := ("") }

/-- The statement object the legacy shiftmanager.py constructs from the
concrete dump above (style code 0 = EVEN, no catalog keys, no overrides). -/
def exLegacyT : TableDefinitionStatement :=
  (Legacy.tdsInit exDumpLines [] [] (some 0) ("mytable") none none none none).getD emptyTds

/-- The statement object shiftmanager/redshift.py constructs from the same
concrete inputs. -/
def exRedshiftT : TableDefinitionStatement :=
  (Redshift.tdsInit exDumpLines [] [] (some 0) ("mytable") none none none none).getD emptyTds

theorem strStarts_of_prefix {p s : String} (h : p.data <+: s.data) :
    strStarts p s = true :=
  List.isPrefixOf_iff_prefix.mpr h

theorem strEnds_of_suffix {p s : String} (h : p.data <:+ s.data) :
    strEnds p s = true :=
  List.isSuffixOf_iff_suffix.mpr h

theorem pyJoin_cons (sep x : String) (l : List String) (h : l ≠ []) :
    pyJoin sep (x :: l) = x ++ sep ++ pyJoin sep l := by
  match l with
  | [] => exact absurd rfl h
  | y :: ys => rfl

theorem pyJoin_concat (sep x : String) (l : List String) :
    ∃ p, pyJoin sep (l ++ [x]) = p ++ x := by
  induction l with
  | nil =>
    refine ⟨(""), ?_⟩
    have : pyJoin sep ([x]) = x := rfl
    rw [List.nil_append, this]
    cases x
    rfl
  | cons y ys ih =>
    obtain ⟨p, hp⟩ := ih
    refine ⟨y ++ sep ++ p, ?_⟩
    rw [List.cons_append, pyJoin_cons sep y (ys ++ [x]) (by simp), hp]
    simp [String.append_assoc]

theorem pyFormatAux_braceFree (assoc : List (String × String)) (fuel : Nat)
    (l : List Char) (h : ∀ c ∈ l, c ≠ lbrace) : pyFormatAux assoc fuel l = l := by
  induction fuel generalizing l with
  | zero => cases l <;> rfl
  | succ fuel ih =>
    cases l with
    | nil => rfl
    | cons c cs =>
      have hc : ¬(c = lbrace) := h c (by simp)
      rw [pyFormatAux, if_neg hc, ih cs (fun d hd => h d (by simp [hd]))]

theorem pyFormat_braceFree (assoc : List (String × String)) (s : String)
    (h : ∀ c ∈ s.data, c ≠ lbrace) : pyFormat assoc s = s := by
  unfold pyFormat
  rw [pyFormatAux_braceFree assoc s.data.length s.data h]

/-- C1 (amended): only the legacy shiftmanager.py implementation wraps the
script returned by definition() between BEGIN TRANSACTION and END
TRANSACTION; for every legacy object whose definition() returns a script,
that script carries both markers. The shiftmanager/redshift.py
implementation emits no transaction markers (see the counterexample). -/
theorem legacy_definition_wrapped_in_transaction (t : TableDefinitionStatement)
    (s : String) (h : Legacy.definition t = some s) :
    wrappedInTransaction s = true := by
  obtain ⟨cl, hcl⟩ : ∃ cl, Legacy.createLinesOut t = some cl := by
    cases hc : Legacy.createLinesOut t with
    | none =>
      exfalso
      unfold Legacy.definition Legacy.definitionRun Legacy.allLines at h
      rw [hc] at h
      simp at h
    | some cl => exact ⟨cl, rfl⟩
  obtain ⟨mid, hal⟩ : ∃ mid, Legacy.allLines t =
      some (("BEGIN TRANSACTION;\n") :: mid ++ [("\nEND TRANSACTION;")]) := by
    unfold Legacy.allLines
    rw [hcl]
    exact ⟨_, rfl⟩
  have hs : s = pyJoin ("\n") ((("BEGIN TRANSACTION;\n") :: mid ++
      [("\nEND TRANSACTION;")]).map (pyFormat (Legacy.names t))) := by
    unfold Legacy.definition Legacy.definitionRun at h
    rw [hal] at h
    simp only [Option.map_some', Option.some.injEq] at h
    exact h.symm
  simp only [List.map_cons, List.map_append, List.map_nil, List.cons_append] at hs
  rw [pyFormat_braceFree _ _ (by decide), pyFormat_braceFree _ _ (by decide)] at hs
  obtain ⟨p, hp⟩ := pyJoin_concat ("\n") (("\nEND TRANSACTION;"))
    (mid.map (pyFormat (Legacy.names t)))
  rw [pyJoin_cons ("\n") ("BEGIN TRANSACTION;\n")
    (mid.map (pyFormat (Legacy.names t)) ++ [("\nEND TRANSACTION;")]) (by simp), hp] at hs
  subst hs
  unfold wrappedInTransaction
  rw [Bool.and_eq_true]
  constructor
  · apply strStarts_of_prefix
    simp only [String.data_append, List.append_assoc]
    exact List.IsPrefix.trans ⟨[('\n')], by decide⟩ (List.prefix_append _ _)
  · apply strEnds_of_suffix
    simp only [String.data_append]
    rw [← List.append_assoc]
    exact @List.IsSuffix.trans Char (("END TRANSACTION;").data)
      (("\nEND TRANSACTION;").data) _ ⟨[('\n')], by decide⟩ (List.suffix_append _ _)

/-- Witness: the legacy object constructed from the concrete dump produces a
script, and by the theorem that script carries both transaction markers. -/
theorem legacy_definition_wrapped_in_transaction_witness :
    Legacy.definition exLegacyT = some ((Legacy.definition exLegacyT).getD (""))
    ∧ wrappedInTransaction ((Legacy.definition exLegacyT).getD ("")) = true := by
  have h : Legacy.definition exLegacyT =
      some ((Legacy.definition exLegacyT).getD ("")) := by rfl
  exact ⟨h, legacy_definition_wrapped_in_transaction exLegacyT _ h⟩

/-- C1 counterexample: the package implementation (shiftmanager/redshift.py)
constructs a statement object from a concrete dump whose definition() script
exists (the map is some) yet carries no transaction markers (false). -/
theorem redshift_definition_not_wrapped :
    ((Redshift.tdsInit exDumpLines [] [] (some 0) ("mytable") none none none
      none).bind Redshift.definition).map wrappedInTransaction = some false := by
  rfl

theorem strStarts_head (p x : String) (c : Char) (cs : List Char)
    (hp : p.data = c :: cs) (h : strStarts p x = true) : ∃ l, x.data = c :: l := by
  unfold strStarts at h
  rw [hp] at h
  cases hx : x.data with
  | nil => rw [hx] at h; simp [List.isPrefixOf] at h
  | cons b bs =>
    rw [hx] at h
    simp only [List.isPrefixOf, Bool.and_eq_true, beq_iff_eq] at h
    exact ⟨bs, by rw [h.1]⟩

theorem strNeOfHead (x y : String) (h : x.data.head? ≠ y.data.head?) : x ≠ y :=
  fun he => h (by rw [he])

theorem replaceAux_head (p0 : Char) (ps r : List Char) (r0 : Char) (rt : List Char)
    (hr : r = r0 :: rt) (fuel : Nat) (c : Char) (cs : List Char) :
    (replaceAux p0 ps r (fuel + 1) (c :: cs)).head? = some r0 ∨
    (replaceAux p0 ps r (fuel + 1) (c :: cs)).head? = some c := by
  rw [replaceAux]
  by_cases hp : (p0 :: ps).isPrefixOf (c :: cs)
  · rw [if_pos hp, hr]
    exact Or.inl rfl
  · rw [if_neg hp]
    exact Or.inr rfl

theorem pyReplace_head (s pat rep : String) (c : Char) (cs : List Char)
    (hs : s.data = c :: cs) (r0 : Char) (rt : List Char) (hr : rep.data = r0 :: rt) :
    (pyReplace s pat rep).data.head? = some r0 ∨
    (pyReplace s pat rep).data.head? = some c := by
  unfold pyReplace
  cases hp : pat.data with
  | nil =>
    rw [hr]
    exact Or.inl rfl
  | cons p0 ps =>
    rw [hs]
    have hl : (c :: cs).length = cs.length + 1 := by simp
    rw [hl]
    exact replaceAux_head p0 ps rep.data r0 rt hr cs.length c cs

theorem appendToLast_cons (s x : String) (l : List String) (h : l ≠ []) :
    Redshift.appendToLast s (x :: l) = x :: Redshift.appendToLast s l := by
  match l with
  | [] => exact absurd rfl h
  | y :: ys => rfl

theorem redshift_createLinesOut_head (t : TableDefinitionStatement)
    (c0 : String) (cs : List String) (hc : t.create_lines = c0 :: cs) :
    ∃ rest, Redshift.createLinesOut t =
      some (pyReplace c0 t.tablename ("\x7bnewtmp\x7d") :: rest) := by
  unfold Redshift.createLinesOut
  rw [hc]
  by_cases hdk : strTruthy t.distkey <;> by_cases hsk : strTruthy t.sortkey <;>
    simp only [hdk, hsk, if_true, if_false, Bool.false_eq_true, List.cons_append,
      List.append_assoc] <;>
    rw [appendToLast_cons _ _ _ (by simp)] <;>
    exact ⟨_, rfl⟩

/-- C2 (amended): in shiftmanager/redshift.py's definition() the statement
renaming the live table to its temporary name appears strictly before the
first line of the CREATE TABLE block that creates the new table under the
second temporary name; the legacy shiftmanager.py emits the CREATE block
first and the rename after it (see the counterexample). -/
theorem redshift_rename_precedes_create (t : TableDefinitionStatement)
    (c0 : String) (cs : List String) (hc : t.create_lines = c0 :: cs)
    (hcreate : strStarts ("CREATE TABLE ") c0 = true) :
    ∃ ls, Redshift.allLines t = some ls ∧ ∃ i j : Nat, i < j ∧
      ls[i]? = some ("ALTER TABLE \x7btablename\x7d RENAME TO \x7boldtmp\x7d;") ∧
      ls[j]? = some (pyReplace c0 t.tablename ("\x7bnewtmp\x7d")) ∧
      ∀ k : Nat, k < j → ls[k]? ≠ some (pyReplace c0 t.tablename ("\x7bnewtmp\x7d")) := by
  obtain ⟨rest, hcl⟩ := redshift_createLinesOut_head t c0 cs hc
  obtain ⟨l0, hl0⟩ := strStarts_head ("CREATE TABLE ") c0 ('C')
    (("REATE TABLE ").data) (by rfl) hcreate
  have hrep : (pyReplace c0 t.tablename ("\x7bnewtmp\x7d")).data.head? = some lbrace ∨
      (pyReplace c0 t.tablename ("\x7bnewtmp\x7d")).data.head? = some ('C') :=
    pyReplace_head c0 t.tablename _ ('C') l0 hl0 lbrace (("newtmp\x7d").data) (by rfl)
  refine ⟨("SET search_path = analytics, pg_catalog;\n") ::
      ("ALTER TABLE \x7btablename\x7d RENAME TO \x7boldtmp\x7d;") ::
      pyReplace c0 t.tablename ("\x7bnewtmp\x7d") :: (rest ++
        (("INSERT INTO \x7bnewtmp\x7d (SELECT * FROM \x7boldtmp\x7d);") ::
         ("ALTER TABLE \x7bnewtmp\x7d RENAME TO \x7btablename\x7d;") ::
         ("DROP TABLE \x7boldtmp\x7d;\n") :: (t.alters ++ ("") :: t.grants))),
      ?_, 1, 2, by omega, by simp, by simp, ?_⟩
  · unfold Redshift.allLines
    rw [hcl]
    simp [List.cons_append, List.append_assoc]
  · intro k hk
    interval_cases k <;>
    · simp only [List.getElem?_cons_zero, List.getElem?_cons_succ]
      intro he
      have hinj := Option.some.inj he
      rcases hrep with h | h <;> rw [← hinj] at h <;> exact absurd h (by decide)

/-- Witness: the package object constructed from the concrete dump satisfies
the rename-before-create ordering of the amended C2 theorem. -/
theorem redshift_rename_precedes_create_witness :
    exRedshiftT.create_lines = ("CREATE TABLE mytable (") :: [("    id integer")] ∧
    strStarts ("CREATE TABLE ") ("CREATE TABLE mytable (") = true ∧
    (∃ ls, Redshift.allLines exRedshiftT = some ls ∧ ∃ i j : Nat, i < j ∧
      ls[i]? = some ("ALTER TABLE \x7btablename\x7d RENAME TO \x7boldtmp\x7d;") ∧
      ls[j]? = some (pyReplace ("CREATE TABLE mytable (") exRedshiftT.tablename
        ("\x7bnewtmp\x7d")) ∧
      ∀ k : Nat, k < j → ls[k]? ≠ some (pyReplace ("CREATE TABLE mytable (")
        exRedshiftT.tablename ("\x7bnewtmp\x7d"))) :=
  ⟨by rfl, by rfl,
    redshift_rename_precedes_create exRedshiftT _ _ (by rfl) (by rfl)⟩

/-- C2 counterexample: in the legacy shiftmanager.py the first occurrence of
the CREATE TABLE line (index 1) precedes the first occurrence of the rename
statement (index 4) in the definition() statement list of the object
constructed from the concrete dump, so the rename does not come first. -/
theorem legacy_create_precedes_rename :
    (Legacy.allLines exLegacyT).map (fun ls =>
      (ls.findIdx? (fun l => l == ("  CREATE TABLE \x7btgtname\x7d (")),
       ls.findIdx? (fun l => l == ("  ALTER TABLE \x7btablename\x7d RENAME TO \x7bsrcname\x7d;"))))
      = some (some 1, some 4) := by
  rfl

/-- The manifest entry written for the object stored under key k. -/
def mkEntry (bucket k : String) : ManifestEntry :=
  { url := ("s3://") ++ bucket ++ ("/") ++ k, mandatory := true }

theorem copyLoop_props (bucket : String) (okData : Nat → Bool) :
    ∀ (files : List String) (i : Nat) (keypath : String),
      ((copyLoop bucket okData i keypath files).2.2.2.2 = true →
        (copyLoop bucket okData i keypath files).1 =
          (copyLoop bucket okData i keypath files).2.1) ∧
      ((copyLoop bucket okData i keypath files).1 =
          (copyLoop bucket okData i keypath files).2.1 ∨
        ∃ k, (copyLoop bucket okData i keypath files).1 =
          (copyLoop bucket okData i keypath files).2.1 ++ [k]) ∧
      ((copyLoop bucket okData i keypath files).2.2.1 =
        (copyLoop bucket okData i keypath files).2.1.map (mkEntry bucket)) ∧
      ((copyLoop bucket okData i keypath files).2.2.2.2 = true →
        (copyLoop bucket okData i keypath files).2.1.length = files.length) := by
  intro files
  induction files with
  | nil =>
    intro i keypath
    exact ⟨fun _ => rfl, Or.inl rfl, rfl, fun _ => rfl⟩
  | cons path rest ih =>
    intro i keypath
    simp only [copyLoop]
    by_cases hok : okData i
    · simp only [hok, if_true]
      obtain ⟨ih1, ih2, ih3, ih4⟩ := ih (i + 1)
        (if strStarts ("/") keypath then String.mk keypath.data.tail else keypath)
      refine ⟨fun h => by rw [ih1 h], ?_, by rw [ih3]; rfl, fun h => by simp [ih4 h]⟩
      rcases ih2 with h | ⟨k, hk⟩
      · exact Or.inl (by rw [h])
      · exact Or.inr ⟨k, by rw [hk]; rfl⟩
    · simp only [hok, if_false, Bool.false_eq_true]
      exact ⟨fun h => by simp at h, Or.inr ⟨_, rfl⟩, rfl, fun h => by simp at h⟩

/-- C5 (amended): every partition key is appended to the sweep list
immediately before its upload is attempted, so the sweep list equals the
list of keys actually written except that, when an upload fails, it
additionally ends with the single key of the failed attempt; keys of
unattempted uploads never appear, and on a fully successful run the sweep
list equals the written keys exactly. -/
theorem copy_sweep_tracks_attempts (bucket keypath stamp : String)
    (files : List String) (okData : Nat → Bool) (okManifest okJsonpaths : Bool) :
    ((copy_json_to_table bucket keypath stamp files okData okManifest
        okJsonpaths).ok = true →
      (copy_json_to_table bucket keypath stamp files okData okManifest
        okJsonpaths).sweep =
      (copy_json_to_table bucket keypath stamp files okData okManifest
        okJsonpaths).written) ∧
    ((copy_json_to_table bucket keypath stamp files okData okManifest
        okJsonpaths).sweep =
      (copy_json_to_table bucket keypath stamp files okData okManifest
        okJsonpaths).written ∨
      ∃ k, (copy_json_to_table bucket keypath stamp files okData okManifest
        okJsonpaths).sweep =
      (copy_json_to_table bucket keypath stamp files okData okManifest
        okJsonpaths).written ++ [k]) := by
  obtain ⟨h1, h2, h3, h4⟩ := copyLoop_props bucket okData files 0 keypath
  unfold copy_json_to_table
  cases hloop : (copyLoop bucket okData 0 keypath files).2.2.2.2 with
  | false =>
    simp only [hloop, Bool.false_eq_true, if_false]
    refine ⟨fun h => by simp at h, ?_⟩
    rcases h2 with h | ⟨k, hk⟩
    · exact Or.inl h
    · exact Or.inr ⟨k, hk⟩
  | true =>
    have hsw := h1 hloop
    cases hm : okManifest with
    | false =>
      simp only [hloop, hm, if_true, Bool.false_eq_true, if_false]
      exact ⟨fun h => by simp at h, Or.inl hsw⟩
    | true =>
      cases hj : okJsonpaths with
      | false =>
        simp only [hloop, hm, hj, if_true, Bool.false_eq_true, if_false]
        exact ⟨fun h => by simp at h, Or.inl (by rw [hsw])⟩
      | true =>
        simp only [hloop, hm, hj, if_true]
        exact ⟨fun _ => by rw [hsw], Or.inl (by rw [hsw])⟩

/-- Thirty-two staged partition files, as in the spec scenario. -/
def exFiles32 : List String := (List.range 32).map (fun i => ("p") ++ toString i ++ (".gz"))

/-- Witness: on a fully successful 32-partition run the sweep list equals
the written keys exactly. -/
theorem copy_sweep_tracks_attempts_witness :
    (copy_json_to_table ("buck") ("k") ("st") exFiles32 (fun _ => true) true
      true).ok = true ∧
    (copy_json_to_table ("buck") ("k") ("st") exFiles32 (fun _ => true) true
      true).sweep =
    (copy_json_to_table ("buck") ("k") ("st") exFiles32 (fun _ => true) true
      true).written :=
  ⟨by rfl, (copy_sweep_tracks_attempts ("buck") ("k") ("st") exFiles32
    (fun _ => true) true true).1 (by rfl)⟩

/-- C5 counterexample: with 32 partitions whose 17th upload (index 16)
fails, the sweep list holds 17 keys while only 16 objects were written: the
key k/p16.gz of the failed upload is in the sweep list even though its
upload did not happen. -/
theorem copy_sweep_contains_unwritten_key :
    (copy_json_to_table ("buck") ("k") ("st") exFiles32 (fun i => !(i == 16))
      true true).sweep.length = 17 ∧
    (copy_json_to_table ("buck") ("k") ("st") exFiles32 (fun i => !(i == 16))
      true true).written.length = 16 ∧
    ("k/p16.gz") ∈ (copy_json_to_table ("buck") ("k") ("st") exFiles32
      (fun i => !(i == 16)) true true).sweep ∧
    ¬(("k/p16.gz") ∈ (copy_json_to_table ("buck") ("k") ("st") exFiles32
      (fun i => !(i == 16)) true true).written) := by
  exact ⟨by rfl, by rfl, by decide, by decide⟩

/-- C7: whenever the manifest object is uploaded, the manifest holds exactly
one \x7burl, mandatory: true\x7d entry per partition whose upload completed, and
every staged partition has been uploaded beforehand, so the uploaded
manifest never references a missing object. -/
theorem copy_manifest_exact_and_late (bucket keypath stamp : String)
    (files : List String) (okData : Nat → Bool) (okManifest okJsonpaths : Bool)
    (h : (copy_json_to_table bucket keypath stamp files okData okManifest
      okJsonpaths).manifestUploaded = true) :
    (copy_json_to_table bucket keypath stamp files okData okManifest
      okJsonpaths).manifest =
      (copy_json_to_table bucket keypath stamp files okData okManifest
        okJsonpaths).dataWritten.map (mkEntry bucket) ∧
    (copy_json_to_table bucket keypath stamp files okData okManifest
      okJsonpaths).dataWritten.length = files.length := by
  obtain ⟨h1, h2, h3, h4⟩ := copyLoop_props bucket okData files 0 keypath
  unfold copy_json_to_table at h ⊢
  cases hloop : (copyLoop bucket okData 0 keypath files).2.2.2.2 with
  | false => simp [hloop] at h
  | true =>
    cases hm : okManifest with
    | false => simp [hloop, hm] at h
    | true =>
      cases hj : okJsonpaths with
      | false =>
        simp only [hloop, hm, hj, if_true, Bool.false_eq_true, if_false]
        exact ⟨h3, h4 hloop⟩
      | true =>
        simp only [hloop, hm, hj, if_true]
        exact ⟨h3, h4 hloop⟩

/-- Witness: a successful two-partition run uploads the manifest, whose
entries match the two written partition keys exactly. -/
theorem copy_manifest_exact_and_late_witness :
    (copy_json_to_table ("buck") ("k") ("st") [("a.gz"), ("b.gz")]
      (fun _ => true) true true).manifestUploaded = true ∧
    (copy_json_to_table ("buck") ("k") ("st") [("a.gz"), ("b.gz")]
      (fun _ => true) true true).manifest =
      (copy_json_to_table ("buck") ("k") ("st") [("a.gz"), ("b.gz")]
        (fun _ => true) true true).dataWritten.map (mkEntry ("buck")) ∧
    (copy_json_to_table ("buck") ("k") ("st") [("a.gz"), ("b.gz")]
      (fun _ => true) true true).dataWritten.length = 2 := by
  have h : (copy_json_to_table ("buck") ("k") ("st") [("a.gz"), ("b.gz")]
      (fun _ => true) true true).manifestUploaded = true := by rfl
  have hc := copy_manifest_exact_and_late ("buck") ("k") ("st")
    [("a.gz"), ("b.gz")] (fun _ => true) true true h
  exact ⟨h, hc.1, hc.2⟩

/-- C6: evaluating chunk_json_slices at a run where the write of chunk index
1 raises after gzip.open already created the file: clean_on_exit is set and
the finally block runs, but it removes only the paths in chunk_files, so the
half-written chunk file d/st-1.gz stays on disk although the invocation
created it. -/
theorem chunk_cleanup_misses_failed_write :
    (chunk_json_slices 2 2 ("d") ("st") (fun i => i == 0) true true).raised = true ∧
    (chunk_json_slices 2 2 ("d") ("st") (fun i => i == 0) true
      true).chunk_files = [("d/st-0.gz")] ∧
    (chunk_json_slices 2 2 ("d") ("st") (fun i => i == 0) true true).disk =
      [("d/st-1.gz")] := by
  exact ⟨by rfl, by rfl, by rfl⟩

theorem linspace_getElem (N S i : Nat) (h : i < S) :
    (linspace 0 N S)[i]? = some (i * N / S) := by
  unfold linspace
  simp [List.getElem?_map, List.getElem?_range, h]

/-- C4: for N records and S >= 1 slices, chunk_json_slices' boundary lists
tile [0, N): there are S start boundaries, the i-th start is floor(i*N/S),
ends are the shifted starts with the last slice open (running to N), starts
are non-decreasing, the first slice starts at 0, the last ends at N, and
every index below N lies in exactly one slice. (The boundary function
util.linspace is not in the sources; it is modelled from the spec.) -/
theorem chunk_slices_tile (N S : Nat) (hS : 1 ≤ S) :
    (chunk_range_start N S).length = S ∧
    (∀ i : Nat, i < S → (chunk_range_start N S)[i]? = some (i * N / S)) ∧
    (∀ i : Nat, i + 1 < S → (chunk_range_end N S)[i]? = some (some (sliceEnd N S i))) ∧
    (chunk_range_end N S)[S - 1]? = some none ∧
    (chunk_range_start N S)[0]? = some 0 ∧
    (∀ i j : Nat, i ≤ j → j < S → i * N / S ≤ j * N / S) ∧
    sliceEnd N S (S - 1) = N ∧
    (∀ x : Nat, x < N → ∃! i : Nat, i < S ∧ i * N / S ≤ x ∧ x < sliceEnd N S i) := by
  have hlen : (chunk_range_start N S).length = S := by
    unfold chunk_range_start linspace
    simp
  have htail : ((chunk_range_start N S).tail.map some).length = S - 1 := by
    simp [hlen]
  refine ⟨hlen, fun i h => linspace_getElem N S i h, ?_, ?_, ?_, ?_, ?_, ?_⟩
  · intro i h
    unfold chunk_range_end
    rw [List.getElem?_append_left (by omega)]
    rw [List.getElem?_map]
    unfold chunk_range_start
    rw [List.getElem?_tail, linspace_getElem N S (i + 1) (by omega)]
    unfold sliceEnd
    rw [if_pos h]
    rfl
  · unfold chunk_range_end
    rw [List.getElem?_append_right (by omega), htail]
    simp [Nat.sub_self]
  · unfold chunk_range_start
    rw [linspace_getElem N S 0 (by omega)]
    simp
  · intro i j hij hj
    exact Nat.div_le_div_right (Nat.mul_le_mul_right N hij)
  · unfold sliceEnd
    rw [if_neg (by omega)]
  · intro x hx
    have hP0 : 0 * N / S ≤ x := by simp
    have hPS : ¬ S * N / S ≤ x := by
      rw [Nat.mul_div_cancel_left N (by omega : 0 < S)]
      omega
    have hije0 : (fun k => k * N / S ≤ x) (Nat.findGreatest (fun k => k * N / S ≤ x) S) :=
      @Nat.findGreatest_spec 0 (fun k => k * N / S ≤ x) _ S (Nat.zero_le S) hP0
    have hije : Nat.findGreatest (fun k => k * N / S ≤ x) S * N / S ≤ x := hije0
    have hiS : Nat.findGreatest (fun k => k * N / S ≤ x) S ≤ S :=
      Nat.findGreatest_le S
    have hiS' : Nat.findGreatest (fun k => k * N / S ≤ x) S < S := by
      rcases Nat.lt_or_ge (Nat.findGreatest (fun k => k * N / S ≤ x) S) S with h | h
      · exact h
      · exfalso
        have he : Nat.findGreatest (fun k => k * N / S ≤ x) S = S := le_antisymm hiS h
        rw [he] at hije
        exact hPS hije
    have hnext0 : ¬ (fun k => k * N / S ≤ x)
        (Nat.findGreatest (fun k => k * N / S ≤ x) S + 1) :=
      @Nat.findGreatest_is_greatest (Nat.findGreatest (fun k => k * N / S ≤ x) S + 1)
        (fun k => k * N / S ≤ x) _ S (by omega) (by omega)
    have hnext : ¬ (Nat.findGreatest (fun k => k * N / S ≤ x) S + 1) * N / S ≤ x := hnext0
    have hlt : x < (Nat.findGreatest (fun k => k * N / S ≤ x) S + 1) * N / S := by
      omega
    refine ⟨Nat.findGreatest (fun k => k * N / S ≤ x) S, ⟨hiS', hije, ?_⟩, ?_⟩
    · unfold sliceEnd
      by_cases h2 : Nat.findGreatest (fun k => k * N / S ≤ x) S + 1 < S
      · rw [if_pos h2]
        exact hlt
      · rw [if_neg h2]
        exact hx
    · rintro j ⟨hjS, hjle, hjlt⟩
      by_contra hne
      rcases Nat.lt_or_ge j (Nat.findGreatest (fun k => k * N / S ≤ x) S) with h | h
      · have hj1 : j + 1 < S := by omega
        unfold sliceEnd at hjlt
        rw [if_pos hj1] at hjlt
        have hmono : (j + 1) * N / S ≤ Nat.findGreatest (fun k => k * N / S ≤ x) S * N / S :=
          Nat.div_le_div_right (Nat.mul_le_mul_right N (by omega))
        omega
      · have hmono : (Nat.findGreatest (fun k => k * N / S ≤ x) S + 1) * N / S ≤ j * N / S :=
          Nat.div_le_div_right (Nat.mul_le_mul_right N (by omega))
        omega

/-- Witness: partitioning 10 records into 3 slices satisfies the tiling
theorem; the boundaries are 0, 3, 6 with ends 3, 6 and an open final end. -/
theorem chunk_slices_tile_witness :
    1 ≤ 3 ∧ (chunk_range_start 10 3).length = 3 ∧ chunk_range_start 10 3 = [0, 3, 6] ∧
    (∀ x : Nat, x < 10 → ∃! i : Nat, i < 3 ∧ i * 10 / 3 ≤ x ∧ x < sliceEnd 10 3 i) :=
  ⟨by omega, (chunk_slices_tile 10 3 (by omega)).1, by rfl,
   (chunk_slices_tile 10 3 (by omega)).2.2.2.2.2.2.2⟩

/-- C10: for every length >= 3, for every draw of the three guaranteed
characters (one uppercase, one lowercase, one digit), every draw of the
remaining length - 3 characters from the valid pool, and every shuffle (any
permutation of the built chars list), the password random_password returns
has exactly `length` characters, contains at least one ASCII uppercase
letter, one lowercase letter and one digit, and contains no backslash,
forward slash, single quote, double quote, at sign, or space. -/
theorem random_password_ok (length : Nat) (hlen : 3 ≤ length)
    (u l d : Char) (rest out : List Char)
    (hu : u ∈ ascii_uppercase) (hl : l ∈ ascii_lowercase) (hd : d ∈ pyDigits)
    (hrest : ∀ c ∈ rest, c ∈ valid_chars) (hrlen : rest.length = length - 3)
    (hperm : out.Perm (random_password_chars u l d rest)) :
    (String.mk out).length = length ∧
    (∃ c ∈ out, c ∈ ascii_uppercase) ∧
    (∃ c ∈ out, c ∈ ascii_lowercase) ∧
    (∃ c ∈ out, c ∈ pyDigits) ∧
    (∀ c ∈ out, ¬ c ∈ invalid_chars) := by
  have hsub : random_password_chars u l d rest ⊆ out := hperm.symm.subset
  have hU : ∀ c ∈ ascii_uppercase, ¬ c ∈ invalid_chars := by decide
  have hL : ∀ c ∈ ascii_lowercase, ¬ c ∈ invalid_chars := by decide
  have hD : ∀ c ∈ pyDigits, ¬ c ∈ invalid_chars := by decide
  have hV : ∀ c ∈ valid_chars, ¬ c ∈ invalid_chars := by decide
  refine ⟨?_, ⟨u, hsub (by simp [random_password_chars]), hu⟩,
    ⟨l, hsub (by simp [random_password_chars]), hl⟩,
    ⟨d, hsub (by simp [random_password_chars]), hd⟩, ?_⟩
  · have hne : out.length = (random_password_chars u l d rest).length :=
      hperm.length_eq
    have : (random_password_chars u l d rest).length = 3 + rest.length := by
      simp [random_password_chars]
      omega
    have hsl : (String.mk out).length = out.length := rfl
    omega
  · intro c hc
    have hc' : c ∈ random_password_chars u l d rest := hperm.subset hc
    simp only [random_password_chars, List.cons_append, List.nil_append,
      List.mem_cons] at hc'
    rcases hc' with rfl | rfl | rfl | hmem
    · exact hU c hu
    · exact hL c hl
    · exact hD c hd
    · exact hV c (hrest c hmem)

/-- Witness: at length 3 with choices A, a, 0, an empty tail and the identity
shuffle, the password is Aa0: three characters, one of each required class,
none excluded. -/
theorem random_password_ok_witness :
    3 ≤ 3 ∧
    ((String.mk [('A'), ('a'), ('0')]).length = 3 ∧
    (∃ c ∈ [('A'), ('a'), ('0')], c ∈ ascii_uppercase) ∧
    (∃ c ∈ [('A'), ('a'), ('0')], c ∈ ascii_lowercase) ∧
    (∃ c ∈ [('A'), ('a'), ('0')], c ∈ pyDigits) ∧
    (∀ c ∈ [('A'), ('a'), ('0')], ¬ c ∈ invalid_chars)) :=
  ⟨by decide, random_password_ok 3 (by decide) ('A') ('a') ('0') [] [('A'), ('a'), ('0')]
    (by decide) (by decide) (by decide) (by decide) (by decide) (by decide)⟩

/-- C9: construction fails whenever the dump output has no line starting
with `CREATE TABLE `, or no line starting with `);` after the first such
line; when both markers are present, the CREATE-block extraction succeeds,
so construction does not fail on this account. (The Python code raises an
uncaught IndexError from the empty list comprehension at exactly these two
spots; the spec's DDLParseError names that failure mode, and the embedding
models it as a none result.) -/
theorem tdsInit_ddl_parse_failure
    (lines distkeyRows sortkeyRows : List String) (reldiststyle : Option Nat)
    (tablename : String) (distkey sortkey diststyle owner : Option String) :
    (lines.findIdx? (fun l => strStarts ("CREATE TABLE ") l) = none →
      Redshift.tdsInit lines distkeyRows sortkeyRows reldiststyle tablename
        distkey sortkey diststyle owner = none) ∧
    (∀ s : Nat, lines.findIdx? (fun l => strStarts ("CREATE TABLE ") l) = some s →
      (lines.drop (s + 1)).findIdx? (fun l => strStarts (");") l) = none →
      Redshift.tdsInit lines distkeyRows sortkeyRows reldiststyle tablename
        distkey sortkey diststyle owner = none) ∧
    (∀ s : Nat, lines.findIdx? (fun l => strStarts ("CREATE TABLE ") l) = some s →
      (lines.drop (s + 1)).findIdx? (fun l => strStarts (");") l) ≠ none →
      parseCreateBlock lines ≠ none) := by
  refine ⟨?_, ?_, ?_⟩
  · intro h
    simp [Redshift.tdsInit, parseCreateBlock, h]
  · intro s hs hn
    simp [Redshift.tdsInit, parseCreateBlock, hs, hn]
  · intro s hs hn
    cases he : (lines.drop (s + 1)).findIdx? (fun l => strStarts (");") l) with
    | none => exact absurd he hn
    | some j => simp [parseCreateBlock, hs, he]

/-- Witness: a dump with no CREATE TABLE line fails, a dump whose CREATE
TABLE block is never closed by a `);` line fails, and the concrete
well-formed dump parses. -/
theorem tdsInit_ddl_parse_failure_witness :
    Redshift.tdsInit [("SET x;")] [] [] (some 0) ("t") none none none none = none ∧
    Redshift.tdsInit [("CREATE TABLE t ("), ("  id integer")] [] [] (some 0)
      ("t") none none none none = none ∧
    parseCreateBlock exDumpLines ≠ none :=
  ⟨(tdsInit_ddl_parse_failure [("SET x;")] [] [] (some 0) ("t")
      none none none none).1 (by rfl),
   (tdsInit_ddl_parse_failure [("CREATE TABLE t ("), ("  id integer")] [] []
      (some 0) ("t") none none none none).2.1 0 (by rfl) (by rfl),
   (tdsInit_ddl_parse_failure exDumpLines [] [] (some 0) ("mytable")
      none none none none).2.2 2 (by rfl) (by decide)⟩

theorem appendToLast_concat (s x : String) (l : List String) :
    Redshift.appendToLast s (l ++ [x]) = l ++ [x ++ s] := by
  induction l with
  | nil => rfl
  | cons y ys ih =>
    rw [List.cons_append, appendToLast_cons s y (ys ++ [x]) (by simp), ih,
      List.cons_append]

theorem strStarts_false_of_head (p x : String) (cp cx : Char) (pt : List Char)
    (hp : p.data = cp :: pt) (hx : x.data.head? = some cx) (hne : cp ≠ cx) :
    strStarts p x = false := by
  unfold strStarts
  rw [hp]
  cases hxd : x.data with
  | nil => rw [hxd] at hx; simp at hx
  | cons b bs =>
    rw [hxd] at hx
    have hb : b = cx := by simpa using hx
    rw [List.isPrefixOf_cons₂]
    have hcc : (cp == b) = false := beq_eq_false_iff_ne.mpr (by rw [hb]; exact hne)
    rw [hcc, Bool.false_and]

theorem parseCreateBlock_facts (lines : List String) (cl : List String)
    (hp : parseCreateBlock lines = some cl) :
    (∀ l ∈ cl, l ∈ lines) ∧
    ∃ c0 cs, cl = c0 :: cs ∧ strStarts ("CREATE TABLE ") c0 = true := by
  cases hs : lines.findIdx? (fun l => strStarts ("CREATE TABLE ") l) with
  | none => simp [parseCreateBlock, hs] at hp
  | some s =>
    cases he : (lines.drop (s + 1)).findIdx? (fun l => strStarts (");") l) with
    | none => simp [parseCreateBlock, hs, he] at hp
    | some j =>
      have hp2 : parseCreateBlock lines = some ((lines.drop s).take (j + 1)) := by
        simp [parseCreateBlock, hs, he]
      have hcl : cl = (lines.drop s).take (j + 1) :=
        (Option.some.inj (hp2.symm.trans hp)).symm
      obtain ⟨hlt, hpred, hleast⟩ := List.findIdx?_eq_some_iff_getElem.mp hs
      constructor
      · intro l hl
        rw [hcl] at hl
        exact List.drop_subset s lines (List.take_subset _ _ hl)
      · refine ⟨lines[s], (lines.drop (s + 1)).take j, ?_, hpred⟩
        rw [hcl, List.drop_eq_getElem_cons hlt, List.take_succ_cons]

theorem redshift_createLinesOut_shape (t : TableDefinitionStatement)
    (c0 : String) (cs : List String) (hc : t.create_lines = c0 :: cs)
    (hdk : strTruthy t.distkey = false) :
    (strTruthy t.sortkey = true →
      Redshift.createLinesOut t = some (pyReplace c0 t.tablename ("\x7bnewtmp\x7d") ::
        (cs ++ [(") DISTSTYLE ") ++ t.diststyle] ++
         [("  SORTKEY(") ++ optStr t.sortkey ++ (")") ++ (";\n")]))) ∧
    (strTruthy t.sortkey = false →
      Redshift.createLinesOut t = some (pyReplace c0 t.tablename ("\x7bnewtmp\x7d") ::
        (cs ++ [(") DISTSTYLE ") ++ t.diststyle ++ (";\n")]))) := by
  constructor
  · intro hsk
    unfold Redshift.createLinesOut
    rw [hc]
    simp only [hdk, hsk, Bool.false_eq_true, if_false, if_true]
    rw [appendToLast_concat]
    simp [List.cons_append, List.append_assoc, String.append_assoc]
  · intro hsk
    unfold Redshift.createLinesOut
    rw [hc]
    simp only [hdk, hsk, Bool.false_eq_true, if_false]
    rw [appendToLast_concat]
    simp [List.cons_append, String.append_assoc]

/-- C3: after construction (shiftmanager/redshift.py; the legacy __init__ is
identical in this logic), whenever the resulting distribution style is EVEN
or ALL up to case, the stored distkey is None regardless of the explicit
distkey argument and of the introspected catalog key, and consequently no
line of the rebuild-script statement list is a DISTKEY clause. The pg_dump
output is assumed to contain no line that itself starts with `  DISTKEY(`
(pg_dump emits no such line). -/
theorem diststyle_even_all_clears_distkey
    (lines distkeyRows sortkeyRows : List String) (reldiststyle : Option Nat)
    (tablename : String) (distkey sortkey diststyle owner : Option String)
    (t : TableDefinitionStatement)
    (hinit : Redshift.tdsInit lines distkeyRows sortkeyRows reldiststyle
      tablename distkey sortkey diststyle owner = some t)
    (hstyle : pyUpper t.diststyle = ("EVEN") ∨ pyUpper t.diststyle = ("ALL"))
    (hnd : ∀ l ∈ lines, strStarts ("  DISTKEY(") l = false) :
    t.distkey = none ∧
    ∀ ls, Redshift.allLines t = some ls →
      ∀ l ∈ ls, strStarts ("  DISTKEY(") l = false := by
  cases hp : parseCreateBlock lines with
  | none => simp [Redshift.tdsInit, hp] at hinit
  | some cl =>
    cases hds : resolveDiststyle diststyle reldiststyle with
    | none => simp [Redshift.tdsInit, hp, hds] at hinit
    | some ds0 =>
      have ht := hinit
      simp only [Redshift.tdsInit, hp, hds, Option.some.injEq] at ht
      have hdkN : t.distkey = none := by
        rcases hstyle with h | h <;>
        · rw [← ht] at h ⊢
          dsimp only at h ⊢
          rw [h]
          rfl
      have hclF : t.create_lines = cl := by
        rw [← ht]
      obtain ⟨hsub, c0, cs, hcl_eq, hcreate⟩ := parseCreateBlock_facts lines cl hp
      obtain ⟨l0, hl0⟩ := strStarts_head ("CREATE TABLE ") c0 ('C')
        (("REATE TABLE ").data) (by rfl) hcreate
      have hc0F : strStarts ("  DISTKEY(")
          (pyReplace c0 t.tablename ("\x7bnewtmp\x7d")) = false := by
        rcases pyReplace_head c0 t.tablename ("\x7bnewtmp\x7d") ('C') l0 hl0
          lbrace (("newtmp\x7d").data) (by rfl) with h | h
        · exact strStarts_false_of_head _ _ (' ') lbrace _ (by rfl) h (by decide)
        · exact strStarts_false_of_head _ _ (' ') ('C') _ (by rfl) h (by decide)
      have hcsF : ∀ l ∈ cs, strStarts ("  DISTKEY(") l = false := by
        intro l hl
        exact hnd l (hsub l (by rw [hcl_eq]; exact List.mem_cons_of_mem c0 hl))
      have haltF : ∀ l ∈ t.alters, strStarts ("  DISTKEY(") l = false := by
        rw [← ht]
        dsimp only
        intro l hl
        by_cases ho : strTruthy owner
        · rw [if_pos ho] at hl
          rcases List.mem_append.mp hl with h1 | h1
          · exact hnd l (List.mem_of_mem_filter h1)
          · rw [List.mem_singleton.mp h1]
            rfl
        · rw [if_neg ho] at hl
          exact hnd l (List.mem_of_mem_filter hl)
      have hgrF : ∀ l ∈ t.grants, strStarts ("  DISTKEY(") l = false := by
        rw [← ht]
        dsimp only
        intro l hl
        by_cases ho : strTruthy owner
        · rw [if_pos ho] at hl
          rcases List.mem_append.mp hl with h1 | h1
          · exact hnd l (List.mem_of_mem_filter h1)
          · rw [List.mem_singleton.mp h1]
            rfl
        · rw [if_neg ho] at hl
          exact hnd l (List.mem_of_mem_filter hl)
      have hshape := redshift_createLinesOut_shape t c0 cs (hclF.trans hcl_eq)
        (by rw [hdkN]; rfl)
      have hnil : ∀ x ∈ ([] : List String), strStarts ("  DISTKEY(") x = false :=
        fun x hx => absurd hx (List.not_mem_nil x)
      refine ⟨hdkN, ?_⟩
      intro ls hls
      unfold Redshift.allLines at hls
      by_cases hsk : strTruthy t.sortkey
      · rw [hshape.1 hsk] at hls
        simp only [Option.some.injEq] at hls
        subst hls
        simp only [List.cons_append, List.nil_append, List.forall_mem_cons,
          List.forall_mem_append]
        exact ⟨rfl, rfl, hc0F,
          ⟨⟨⟨⟨⟨⟨⟨⟨hcsF, rfl, hnil⟩, rfl, hnil⟩, rfl, hnil⟩, rfl, hnil⟩, rfl, hnil⟩,
            haltF⟩, rfl, hnil⟩, hgrF⟩⟩
      · rw [hshape.2 (by simp at hsk; exact hsk)] at hls
        simp only [Option.some.injEq] at hls
        subst hls
        simp only [List.cons_append, List.nil_append, List.forall_mem_cons,
          List.forall_mem_append]
        exact ⟨rfl, rfl, hc0F,
          ⟨⟨⟨⟨⟨⟨⟨hcsF, rfl, hnil⟩, rfl, hnil⟩, rfl, hnil⟩, rfl, hnil⟩,
            haltF⟩, rfl, hnil⟩, hgrF⟩⟩

/-- The object constructed from the concrete dump with an explicit
distkey "id" and an explicit diststyle "ALL" (the spec's scenario 2). -/
def exTdsAll : TableDefinitionStatement :=
  (Redshift.tdsInit exDumpLines [] [] (some 0) ("mytable") (some ("id")) none
    (some ("ALL")) none).getD emptyTds

/-- Witness: with explicit distkey "id" and explicit style ALL, the
constructed object's distkey is cleared and no line of the rebuild script is
a DISTKEY clause. -/
theorem diststyle_even_all_clears_distkey_witness :
    Redshift.tdsInit exDumpLines [] [] (some 0) ("mytable") (some ("id")) none
      (some ("ALL")) none = some exTdsAll ∧
    (pyUpper exTdsAll.diststyle = ("EVEN") ∨ pyUpper exTdsAll.diststyle = ("ALL")) ∧
    exTdsAll.distkey = none ∧
    (∀ ls, Redshift.allLines exTdsAll = some ls →
      ∀ l ∈ ls, strStarts ("  DISTKEY(") l = false) := by
  have h : Redshift.tdsInit exDumpLines [] [] (some 0) ("mytable") (some ("id"))
      none (some ("ALL")) none = some exTdsAll := by rfl
  have hc := diststyle_even_all_clears_distkey exDumpLines [] [] (some 0)
    ("mytable") (some ("id")) none (some ("ALL")) none exTdsAll h
    (Or.inr (by rfl)) (by decide)
  exact ⟨h, Or.inr (by rfl), hc.1, hc.2⟩

/-- C8: definition() is a pure, deterministic read of the constructed
object in both implementations: the state-passing run returns the object
unchanged (the method mutates only its local copy of create_lines, taken
with a slice), and calling it again on the returned object produces the
byte-identical script. -/
theorem definition_pure_idempotent :
    (∀ (t : TableDefinitionStatement) (s : String) (t' : TableDefinitionStatement),
      Redshift.definitionRun t = some (s, t') →
      t' = t ∧ Redshift.definitionRun t' = some (s, t') ∧
        Redshift.definition t' = some s) ∧
    (∀ (t : TableDefinitionStatement) (s : String) (t' : TableDefinitionStatement),
      Legacy.definitionRun t = some (s, t') →
      t' = t ∧ Legacy.definitionRun t' = some (s, t') ∧
        Legacy.definition t' = some s) := by
  constructor
  · intro t s t' h
    cases hal : Redshift.allLines t with
    | none =>
      unfold Redshift.definitionRun at h
      rw [hal] at h
      simp at h
    | some ls =>
      unfold Redshift.definitionRun at h
      rw [hal] at h
      simp only [Option.some.injEq, Prod.mk.injEq] at h
      obtain ⟨hs, ht⟩ := h
      subst ht
      subst hs
      have hrun : Redshift.definitionRun t =
          some (pyJoin ("\n") (ls.map (pyFormat (Redshift.names t))), t) := by
        unfold Redshift.definitionRun
        rw [hal]
      exact ⟨rfl, hrun, by unfold Redshift.definition; rw [hrun]; rfl⟩
  · intro t s t' h
    cases hal : Legacy.allLines t with
    | none =>
      unfold Legacy.definitionRun at h
      rw [hal] at h
      simp at h
    | some ls =>
      unfold Legacy.definitionRun at h
      rw [hal] at h
      simp only [Option.some.injEq, Prod.mk.injEq] at h
      obtain ⟨hs, ht⟩ := h
      subst ht
      subst hs
      have hrun : Legacy.definitionRun t =
          some (pyJoin ("\n") (ls.map (pyFormat (Legacy.names t))), t) := by
        unfold Legacy.definitionRun
        rw [hal]
      exact ⟨rfl, hrun, by unfold Legacy.definition; rw [hrun]; rfl⟩

/-- Witness: at the concretely constructed objects of both implementations,
the run leaves the object unchanged and repeats its script verbatim. -/
theorem definition_pure_idempotent_witness :
    Redshift.definitionRun exRedshiftT =
      some ((((Redshift.definitionRun exRedshiftT).getD (((""), emptyTds))).1),
        exRedshiftT) ∧
    Legacy.definitionRun exLegacyT =
      some ((((Legacy.definitionRun exLegacyT).getD (((""), emptyTds))).1),
        exLegacyT) := by
  have h1 : Redshift.definitionRun exRedshiftT =
      some ((((Redshift.definitionRun exRedshiftT).getD (((""), emptyTds))).1),
        exRedshiftT) := by rfl
  have h2 : Legacy.definitionRun exLegacyT =
      some ((((Legacy.definitionRun exLegacyT).getD (((""), emptyTds))).1),
        exLegacyT) := by rfl
  exact ⟨((definition_pure_idempotent.1 exRedshiftT _ exRedshiftT h1).2).1,
         ((definition_pure_idempotent.2 exLegacyT _ exLegacyT h2).2).1⟩

end Shiftmanager

